import Mathlib

set_option maxRecDepth 100000

/-!
Verification of the motion-tracking core of the repository
(src/lib/kalman-filter.ts and src/lib/motion-tracker.ts).

The embedding models JavaScript numbers as exact rationals extended with
the IEEE special values Infinity, -Infinity and NaN (type JsNum below):
all arithmetic actually performed by the two source files is addition,
subtraction, multiplication and division, which are exact on rationals,
and the special values matter because the code divides by quantities that
can be zero (dt, det(S)).  The transcendental functions the analysis layer
uses (Math.atan2, Math.sqrt, Math.PI) are modelled over the reals in a
mirror type JsR.
-/

namespace LCLV

/-- A JavaScript number: an exact rational, +Infinity, -Infinity or NaN. -/
inductive JsNum : Type
| fin (q : ℚ)
| inf
| ninf
| nan
deriving DecidableEq, Repr

namespace JsNum

instance : OfNat JsNum n := ⟨.fin n⟩

/-- JS unary minus. -/
def neg : JsNum → JsNum
| fin q => fin (-q)
| inf => ninf
| ninf => inf
| nan => nan

/-- JS addition (IEEE semantics on the special values). -/
def add : JsNum → JsNum → JsNum
| nan, _ => nan
| _, nan => nan
| fin a, fin b => fin (a + b)
| fin _, inf => inf
| fin _, ninf => ninf
| inf, fin _ => inf
| inf, inf => inf
| inf, ninf => nan
| ninf, fin _ => ninf
| ninf, inf => nan
| ninf, ninf => ninf

/-- JS subtraction. -/
def sub (a b : JsNum) : JsNum := add a (neg b)

/-- JS multiplication: `0 * ±Infinity = NaN`, signs propagate. -/
def mul : JsNum → JsNum → JsNum
| nan, _ => nan
| _, nan => nan
| fin a, fin b => fin (a * b)
| fin a, inf => if 0 < a then inf else if a < 0 then ninf else nan
| fin a, ninf => if 0 < a then ninf else if a < 0 then inf else nan
| inf, fin b => if 0 < b then inf else if b < 0 then ninf else nan
| ninf, fin b => if 0 < b then ninf else if b < 0 then inf else nan
| inf, inf => inf
| inf, ninf => ninf
| ninf, inf => ninf
| ninf, ninf => inf

/-- JS division: `a / 0` is `±Infinity` for `a ≠ 0` and `NaN` for `a = 0`
(zero is unsigned in this model, matching `+0`). -/
def div : JsNum → JsNum → JsNum
| nan, _ => nan
| _, nan => nan
| fin a, fin b =>
    if b = 0 then (if 0 < a then inf else if a < 0 then ninf else nan)
    else fin (a / b)
| fin _, inf => fin 0
| fin _, ninf => fin 0
| inf, fin b => if 0 ≤ b then inf else ninf
| ninf, fin b => if 0 ≤ b then ninf else inf
| inf, inf => nan
| inf, ninf => nan
| ninf, inf => nan
| ninf, ninf => nan

/-- JS `Math.abs`. -/
def abs : JsNum → JsNum
| fin q => fin |q|
| inf => inf
| ninf => inf
| nan => nan

/-- JS `Math.sign` (returns -1, 0, 1 or NaN). -/
def sign : JsNum → JsNum
| fin q => if 0 < q then fin 1 else if q < 0 then fin (-1) else fin 0
| inf => fin 1
| ninf => fin (-1)
| nan => nan

/-- JS strict inequality `a !== b`: `NaN !== NaN` is true. -/
def strictNe : JsNum → JsNum → Bool
| nan, _ => true
| _, nan => true
| fin a, fin b => decide (a ≠ b)
| inf, inf => false
| ninf, ninf => false
| _, _ => true

/-- JS `<`: any comparison with NaN is false. -/
def lt : JsNum → JsNum → Bool
| nan, _ => false
| _, nan => false
| fin a, fin b => decide (a < b)
| fin _, inf => true
| fin _, ninf => false
| inf, _ => false
| ninf, fin _ => true
| ninf, inf => true
| ninf, ninf => false

/-- JS `<=`: any comparison with NaN is false. -/
def le : JsNum → JsNum → Bool
| nan, _ => false
| _, nan => false
| fin a, fin b => decide (a ≤ b)
| fin _, inf => true
| fin _, ninf => false
| inf, inf => true
| inf, _ => false
| ninf, _ => true

instance : Neg JsNum := ⟨neg⟩
instance : Add JsNum := ⟨add⟩
instance : Sub JsNum := ⟨sub⟩
instance : Mul JsNum := ⟨mul⟩
instance : Div JsNum := ⟨div⟩

end JsNum

/-- JS reals for the transcendental layer (`Math.atan2`, `Math.sqrt`):
an exact real, +Infinity, -Infinity or NaN. -/
inductive JsR : Type
| fin (r : ℝ)
| inf
| ninf
| nan

namespace JsR

/-- Addition on the real layer (used to accumulate the angle sum). -/
def add : JsR → JsR → JsR
| nan, _ => nan
| _, nan => nan
| fin a, fin b => fin (a + b)
| fin _, inf => inf
| fin _, ninf => ninf
| inf, fin _ => inf
| inf, inf => inf
| inf, ninf => nan
| ninf, fin _ => ninf
| ninf, inf => nan
| ninf, ninf => ninf

/-- `Math.abs` on the real layer. -/
def abs : JsR → JsR
| fin r => fin |r|
| inf => inf
| ninf => inf
| nan => nan

/-- JS `>` on the real layer, as a proposition; comparisons with NaN fail. -/
def gtP : JsR → JsR → Prop
| nan, _ => False
| _, nan => False
| fin a, fin b => b < a
| fin _, inf => False
| fin _, ninf => True
| inf, inf => False
| inf, _ => True
| ninf, _ => False

/-- `Math.max` of two values on the real layer (NaN propagates). -/
def max2 : JsR → JsR → JsR
| nan, _ => nan
| _, nan => nan
| fin a, fin b => fin (max a b)
| fin _, inf => inf
| fin a, ninf => fin a
| inf, _ => inf
| ninf, fin b => fin b
| ninf, inf => inf
| ninf, ninf => ninf

/-- Division of the real layer by a finite count (list length; used for
`averageSpeed = sum / speeds.length`).  The count is a positive natural
in every call site, so only that case is exercised. -/
noncomputable def divNat : JsR → ℕ → JsR
| nan, _ => nan
| fin a, n => if n = 0 then (if 0 < a then inf else if a < 0 then ninf else nan)
              else fin (a / n)
| inf, _ => inf
| ninf, _ => ninf

end JsR

/-- Real-valued `atan2` on finite arguments, the standard piecewise
definition (range `(-π, π]`, `atan2 0 0 = 0` as for JS `+0`).
Modelled from `Math.atan2` of the JS runtime. -/
noncomputable def atan2R (y x : ℝ) : ℝ :=
  if 0 < x then Real.arctan (y / x)
  else if x < 0 then
    (if 0 ≤ y then Real.arctan (y / x) + Real.pi else Real.arctan (y / x) - Real.pi)
  else
    (if 0 < y then Real.pi / 2 else if y < 0 then -(Real.pi / 2) else 0)

/-- `Math.atan2` on JS numbers, including the special-value table of the
ECMAScript spec (infinite arguments give multiples of π/4; NaN propagates).
Modelled from `Math.atan2` of the JS runtime. -/
noncomputable def jsAtan2 : JsNum → JsNum → JsR
| .nan, _ => .nan
| _, .nan => .nan
| .fin y, .fin x => .fin (atan2R y x)
| .fin _, .inf => .fin 0
| .fin y, .ninf => if y < 0 then .fin (-Real.pi) else .fin Real.pi
| .inf, .fin _ => .fin (Real.pi / 2)
| .ninf, .fin _ => .fin (-(Real.pi / 2))
| .inf, .inf => .fin (Real.pi / 4)
| .inf, .ninf => .fin (3 * Real.pi / 4)
| .ninf, .inf => .fin (-(Real.pi / 4))
| .ninf, .ninf => .fin (-(3 * Real.pi / 4))

/-- `Math.sqrt` on JS numbers (negative finite argument gives NaN).
Modelled from `Math.sqrt` of the JS runtime. -/
noncomputable def jsSqrt : JsNum → JsR
| .fin q => if 0 ≤ q then .fin (Real.sqrt q) else .nan
| .inf => .inf
| .ninf => .nan
| .nan => .nan

/-! ## Vector / matrix layer (src/lib/kalman-filter.ts private helpers)

`number[]` is embedded as `Vec := List JsNum` and `number[][]` as
`Mat := List (List JsNum)`.  An out-of-range JS index access yields
`undefined`, which behaves as NaN in arithmetic, so `.nan` is the default
of the access helpers; all call sites stay in range. -/

abbrev Vec : Type := List JsNum

abbrev Mat : Type := List (List JsNum)

/-- Element access `m[i][j]` (`undefined`, i.e. NaN, when out of range). -/
def mAt (m : Mat) (i j : ℕ) : JsNum := ((List.getD m i []).getD j .nan)

/-- The accumulation loop `result[i] += a[k] * b[k]` shared by the three
multiplication cases: a dot product folded left, starting from the 0 the
source initialises the result array with. -/
def dotJs (xs ys : List JsNum) : JsNum :=
  (List.zipWith JsNum.mul xs ys).foldl JsNum.add (.fin 0)

/-- `KalmanFilter.transpose`:
`matrix[0].map((_, i) => matrix.map(row => row[i]))`. -/
def transposeJs (m : Mat) : Mat :=
  (List.range (List.getD m 0 []).length).map (fun i => m.map (fun row => row.getD i .nan))

/-- Case 2 of `KalmanFilter.matrixMultiply` (matrix times vector):
`result[i] = sum over j of a[i][j] * b[j]`. -/
def mulVecJs (a : Mat) (b : Vec) : Vec := a.map (fun row => dotJs row b)

/-- Case 1 of `KalmanFilter.matrixMultiply` (vector times matrix):
`result[i] = sum over j of a[j] * b[j][i]` for `i < b[0].length`. -/
def vecMulJs (a : Vec) (b : Mat) : Vec := (transposeJs b).map (fun col => dotJs a col)

/-- Case 3 of `KalmanFilter.matrixMultiply` (matrix times matrix):
`result[i][j] = sum over k of a[i][k] * b[k][j]`. -/
def mulMatJs (a b : Mat) : Mat := a.map (fun row => (transposeJs b).map (fun col => dotJs row col))

/-- The dynamic argument type `number[] | number[][]` of
`KalmanFilter.matrixMultiply`; the `isVector` / `isMatrix` runtime guards
of the source correspond to the two constructors. -/
inductive Arr : Type
| vec (v : Vec)
| mat (m : Mat)

/-- `KalmanFilter.matrixMultiply`: dispatches on the runtime shapes of its
two arguments and throws `'Invalid matrix multiplication input types'`
when neither case matches (both arguments vectors). -/
def matrixMultiplyJs : Arr → Arr → Except String Arr
| .vec a, .mat b => .ok (.vec (vecMulJs a b))
| .mat a, .vec b => .ok (.vec (mulVecJs a b))
| .mat a, .mat b => .ok (.mat (mulMatJs a b))
| .vec _, .vec _ => .error "Invalid matrix multiplication input types"

/-- The TypeScript `as number[]` cast on a `matrixMultiply` result.  The
cast is unchecked at runtime; the `.mat` case is unreachable at every
call site (each call passes one matrix and one vector). -/
def asVec : Arr → Except String Vec
| .vec v => .ok v
| .mat _ => .error "cast to number[] failed"

/-- The TypeScript `as number[][]` cast on a `matrixMultiply` result. -/
def asMat : Arr → Except String Mat
| .mat m => .ok m
| .vec _ => .error "cast to number[][] failed"

/-- `KalmanFilter.matrixAdd` (entrywise `a[i][j] + b[i][j]`; equal shapes
at every call site). -/
def matrixAddJs (a b : Mat) : Mat := List.zipWith (List.zipWith JsNum.add) a b

/-- `KalmanFilter.matrixSubtract`. -/
def matrixSubtractJs (a b : Mat) : Mat := List.zipWith (List.zipWith JsNum.sub) a b

/-- `KalmanFilter.vectorAdd`. -/
def vectorAddJs (a b : Vec) : Vec := List.zipWith JsNum.add a b

/-- `KalmanFilter.vectorSubtract`. -/
def vectorSubtractJs (a b : Vec) : Vec := List.zipWith JsNum.sub a b

/-- `KalmanFilter.identity`. -/
def identityJs (size : ℕ) : Mat :=
  (List.range size).map (fun i => (List.range size).map (fun j => if i = j then .fin 1 else .fin 0))

/-- The determinant `matrix[0][0] * matrix[1][1] - matrix[0][1] * matrix[1][0]`
computed by `KalmanFilter.inverse2x2`. -/
def det2x2 (m : Mat) : JsNum :=
  JsNum.sub (JsNum.mul (mAt m 0 0) (mAt m 1 1)) (JsNum.mul (mAt m 0 1) (mAt m 1 0))

/-- `KalmanFilter.inverse2x2`: closed-form 2×2 inverse; the division by
`det` is unguarded, so `det = 0` produces Infinity/NaN entries. -/
def inverse2x2Js (m : Mat) : Mat :=
  [[JsNum.div (mAt m 1 1) (det2x2 m), JsNum.div (JsNum.neg (mAt m 0 1)) (det2x2 m)],
   [JsNum.div (JsNum.neg (mAt m 1 0)) (det2x2 m), JsNum.div (mAt m 0 0) (det2x2 m)]]

/-! ## KalmanFilter (src/lib/kalman-filter.ts) -/

/-- The mutable fields of a `KalmanFilter` instance. -/
structure KState : Type where
  state : Vec
  covariance : Mat
  processNoise : JsNum
  measurementNoise : JsNum

/-- `new KalmanFilter(initialX = 0, initialY = 0, processNoise = 0.1,
measurementNoise = 1)`: state `[initialX, initialY, 0, 0]`, covariance
`diag(100, 100, 100, 100)`. -/
def mkKalman (initialX initialY : JsNum := .fin 0)
    (processNoise : JsNum := .fin (1/10)) (measurementNoise : JsNum := .fin 1) : KState where
  state := [initialX, initialY, .fin 0, .fin 0]
  covariance :=
    [[.fin 100, .fin 0, .fin 0, .fin 0],
     [.fin 0, .fin 100, .fin 0, .fin 0],
     [.fin 0, .fin 0, .fin 100, .fin 0],
     [.fin 0, .fin 0, .fin 0, .fin 100]]
  processNoise := processNoise
  measurementNoise := measurementNoise

/-- The state transition matrix `F` of `KalmanFilter.predict`. -/
def transitionF (dt : JsNum) : Mat :=
  [[.fin 1, .fin 0, dt, .fin 0],
   [.fin 0, .fin 1, .fin 0, dt],
   [.fin 0, .fin 0, .fin 1, .fin 0],
   [.fin 0, .fin 0, .fin 0, .fin 1]]

/-- `dt2 = dt * dt` in `createProcessNoiseMatrix`. -/
def dt2 (dt : JsNum) : JsNum := dt * dt

/-- `dt3 = dt2 * dt` in `createProcessNoiseMatrix`. -/
def dt3 (dt : JsNum) : JsNum := dt2 dt * dt

/-- `dt4 = dt3 * dt` in `createProcessNoiseMatrix`. -/
def dt4 (dt : JsNum) : JsNum := dt3 dt * dt

/-- `KalmanFilter.createProcessNoiseMatrix`. -/
def createProcessNoiseMatrix (kf : KState) (dt : JsNum) : Mat :=
  [[(dt4 dt).div (.fin 4) * kf.processNoise, .fin 0, (dt3 dt).div (.fin 2) * kf.processNoise, .fin 0],
   [.fin 0, (dt4 dt).div (.fin 4) * kf.processNoise, .fin 0, (dt3 dt).div (.fin 2) * kf.processNoise],
   [(dt3 dt).div (.fin 2) * kf.processNoise, .fin 0, (dt2 dt) * kf.processNoise, .fin 0],
   [.fin 0, (dt3 dt).div (.fin 2) * kf.processNoise, .fin 0, (dt2 dt) * kf.processNoise]]

/-- The record `{x, y, dx, dy}` returned by `KalmanFilter.predict`. -/
structure PredOut : Type where
  x : JsNum
  y : JsNum
  dx : JsNum
  dy : JsNum
deriving DecidableEq

/-- `KalmanFilter.predict(dt)`: state becomes `F · state`, covariance
becomes `F · P · Fᵗ + Q(dt)`; returns the four components of the new
state.  The mutation is embedded by returning the new `KState`. -/
def predictJs (kf : KState) (dt : JsNum) : Except String (PredOut × KState) := do
  let F := transitionF dt
  let predictedState ← asVec (← matrixMultiplyJs (.mat F) (.vec kf.state))
  let Q := createProcessNoiseMatrix kf dt
  let FP ← asMat (← matrixMultiplyJs (.mat F) (.mat kf.covariance))
  let FPFt ← asMat (← matrixMultiplyJs (.mat FP) (.mat (transposeJs F)))
  let newCov := matrixAddJs FPFt Q
  let kf1 : KState := { kf with state := predictedState, covariance := newCov }
  return ({ x := predictedState.getD 0 .nan, y := predictedState.getD 1 .nan,
            dx := predictedState.getD 2 .nan, dy := predictedState.getD 3 .nan }, kf1)

/-- A measured position `{x, y}`. -/
structure Point : Type where
  x : JsNum
  y : JsNum
deriving DecidableEq, Repr

/-- The measurement matrix `H` of `KalmanFilter.update`. -/
def measurementH : Mat :=
  [[.fin 1, .fin 0, .fin 0, .fin 0],
   [.fin 0, .fin 1, .fin 0, .fin 0]]

/-- The measurement noise matrix `R` of `KalmanFilter.update`. -/
def measurementR (kf : KState) : Mat :=
  [[kf.measurementNoise, .fin 0],
   [.fin 0, kf.measurementNoise]]

/-- The innovation covariance `S = H·P·Hᵗ + R` computed (inline) by
`KalmanFilter.update`, named here so the singularity analysis can refer
to it. -/
def innovationS (kf : KState) : Mat :=
  matrixAddJs (mulMatJs (mulMatJs measurementH kf.covariance) (transposeJs measurementH))
    (measurementR kf)

/-- `KalmanFilter.update(measurement)`: computes the Kalman gain
`K = P·Hᵗ·S⁻¹` (with the unguarded 2×2 inverse), corrects the state by
`K · innovation` and the covariance by `(I − K·H)·P`. -/
def updateJs (kf : KState) (measurement : Point) : Except String KState := do
  let H := measurementH
  let R := measurementR kf
  let PHt ← asMat (← matrixMultiplyJs (.mat kf.covariance) (.mat (transposeJs H)))
  let HP ← asMat (← matrixMultiplyJs (.mat H) (.mat kf.covariance))
  let HPHt ← asMat (← matrixMultiplyJs (.mat HP) (.mat (transposeJs H)))
  let S := matrixAddJs HPHt R
  let K ← asMat (← matrixMultiplyJs (.mat PHt) (.mat (inverse2x2Js S)))
  let measurementVector : Vec := [measurement.x, measurement.y]
  let Hstate ← asVec (← matrixMultiplyJs (.mat H) (.vec kf.state))
  let innovation := vectorSubtractJs measurementVector Hstate
  let Kinnov ← asVec (← matrixMultiplyJs (.mat K) (.vec innovation))
  let newState := vectorAddJs kf.state Kinnov
  let I := identityJs 4
  let KH ← asMat (← matrixMultiplyJs (.mat K) (.mat H))
  let newCov ← asMat (← matrixMultiplyJs (.mat (matrixSubtractJs I KH)) (.mat kf.covariance))
  return { kf with state := newState, covariance := newCov }

/-! ## MotionTracker (src/lib/motion-tracker.ts) -/

/-- A `MotionData` record: filtered position and velocity, raw
finite-difference acceleration, and the call timestamp. -/
structure MotionData : Type where
  position : Point
  velocity : Point
  acceleration : Point
  timestamp : JsNum
deriving DecidableEq, Repr

/-- The fields of a `MotionTracker` instance. -/
structure Tracker : Type where
  kalmanFilter : KState
  lastTimestamp : Option JsNum
  lastPosition : Option Point
  lastVelocity : Option Point
  motionHistory : List MotionData

/-- `historySize = 10`. -/
def historySize : ℕ := 10

/-- `new MotionTracker()`: a fresh default `KalmanFilter`, all `last*`
fields null, empty history. -/
def freshTracker : Tracker where
  kalmanFilter := mkKalman
  lastTimestamp := none
  lastPosition := none
  lastVelocity := none
  motionHistory := []

/-- `MotionTracker.track(position, timestamp)`.  First call (null
`lastTimestamp`): record the bootstrap sample with zero velocity and
acceleration, touching neither the Kalman filter nor performing
predict/update.  Later calls: `dt = (timestamp - lastTimestamp) / 1000`,
predict, update, raw finite-difference velocity and acceleration, push to
history with FIFO trim at `historySize`.  The non-null assertions
`lastPosition!` / `lastVelocity!` throw a TypeError when the field is
null, embedded as `.error`. -/
def trackJs (tr : Tracker) (position : Point) (timestamp : JsNum) :
    Except String (MotionData × Tracker) := do
  match tr.lastTimestamp with
  | none =>
    let initialMotion : MotionData :=
      { position := position, velocity := { x := .fin 0, y := .fin 0 },
        acceleration := { x := .fin 0, y := .fin 0 }, timestamp := timestamp }
    return (initialMotion,
      { tr with lastTimestamp := some timestamp, lastPosition := some position,
                lastVelocity := some { x := .fin 0, y := .fin 0 },
                motionHistory := tr.motionHistory ++ [initialMotion] })
  | some lastTs =>
    let dt := JsNum.div (JsNum.sub timestamp lastTs) (.fin 1000)
    let (prediction, kf1) ← predictJs tr.kalmanFilter dt
    let kf2 ← updateJs kf1 position
    let lastPos ← match tr.lastPosition with
      | some p => pure p
      | none => Except.error "TypeError: lastPosition is null"
    let lastVel ← match tr.lastVelocity with
      | some v => pure v
      | none => Except.error "TypeError: lastVelocity is null"
    let velocity : Point :=
      { x := JsNum.div (JsNum.sub position.x lastPos.x) dt,
        y := JsNum.div (JsNum.sub position.y lastPos.y) dt }
    let acceleration : Point :=
      { x := JsNum.div (JsNum.sub velocity.x lastVel.x) dt,
        y := JsNum.div (JsNum.sub velocity.y lastVel.y) dt }
    let motionData : MotionData :=
      { position := { x := prediction.x, y := prediction.y },
        velocity := { x := prediction.dx, y := prediction.dy },
        acceleration := acceleration, timestamp := timestamp }
    let pushed := tr.motionHistory ++ [motionData]
    let newHistory := if historySize < pushed.length then pushed.drop 1 else pushed
    return (motionData,
      { tr with kalmanFilter := kf2, lastTimestamp := some timestamp,
                lastPosition := some position, lastVelocity := some velocity,
                motionHistory := newHistory })

/-- A whole sequence of `track()` calls, collecting the returned samples. -/
def trackAll (tr : Tracker) : List (Point × JsNum) → Except String (Tracker × List MotionData)
| [] => .ok (tr, [])
| (p, ts) :: rest => do
  let (sample, tr1) ← trackJs tr p ts
  let (tr2, samples) ← trackAll tr1 rest
  return (tr2, sample :: samples)

/-- `MotionTracker.reset()`: fresh default `KalmanFilter`, null `last*`
fields, empty history. -/
def resetTracker (_tr : Tracker) : Tracker where
  kalmanFilter := mkKalman
  lastTimestamp := none
  lastPosition := none
  lastVelocity := none
  motionHistory := []

/-- The fixed direction label list of `MotionTracker.getDirection`. -/
def directionLabels : List String :=
  ["east", "northeast", "north", "northwest", "west", "southwest", "south", "southeast"]

/-- JS `Math.round` on a real: round half away from negative infinity,
i.e. `⌊x + 1/2⌋`.  Modelled from `Math.round` of the JS runtime. -/
noncomputable def jsRound (x : ℝ) : ℤ := ⌊x + 1/2⌋

/-- JS `%` (remainder with the sign of the dividend) on integers. -/
def jsRem (a b : ℤ) : ℤ := Int.tmod a b

/-- `MotionTracker.getDirection(angle)`:
`directions[Math.round(((angle + π) * 4) / π) % 8]`.  A non-finite angle
makes the index NaN and the array access yield `undefined` (rendered as
the string JS would coerce the key to). -/
noncomputable def getDirection (angle : JsR) : String :=
  match angle with
  | .fin r =>
    let index := jsRem (jsRound (((r + Real.pi) * 4) / Real.pi)) 8
    if 0 ≤ index ∧ index < 8 then directionLabels.getD index.toNat "undefined"
    else "undefined"
  | _ => "undefined"

/-- The counts object built by the `reduce` in
`MotionTracker.findDominantDirection`: association list in key insertion
order (JS string-keyed objects preserve insertion order), each key with
its final count. -/
def countsList (directions : List String) : List (String × ℕ) :=
  directions.foldl
    (fun acc dir =>
      if acc.any (fun e => e.1 = dir)
      then acc.map (fun e => if e.1 = dir then (e.1, e.2 + 1) else e)
      else acc ++ [(dir, 1)]) []

/-- `MotionTracker.findDominantDirection`:
`Object.entries(counts).sort(([,a],[,b]) => b - a)[0][0]`.
`Array.prototype.sort` is a stable sort (ES2019), so sorting by
descending count is embedded as an insertion sort with the non-strict
relation `b.count ≤ a.count`, which preserves the insertion order of
equal counts; `[0]` on an empty array would give `undefined` and the
trailing `[0]` would then throw, embedded as `none`. -/
def findDominantDirection (directions : List String) : Option String :=
  (((countsList directions).insertionSort (fun a b => b.2 ≤ a.2)).head?).map (fun e => e.1)

/-- `MotionTracker.detectOscillation(velocities)`: counts indices `i ≥ 1`
where `Math.sign` of `x` or of `y` differs (strictly, `!==`) from the
previous sample; at least 2 such changes. -/
def detectOscillation (velocities : List Point) : Bool :=
  2 ≤ ((velocities.drop 1).zip velocities).countP
    (fun cv => JsNum.strictNe cv.1.x.sign cv.2.x.sign || JsNum.strictNe cv.1.y.sign cv.2.y.sign)

/-- The angle sum of `MotionTracker.detectCircularMotion`:
`Σ_{i ≥ 1} atan2(v[i].y - v[i-1].y, v[i].x - v[i-1].x)`. -/
noncomputable def angleSum (velocities : List Point) : JsR :=
  (((velocities.drop 1).zip velocities).map
    (fun cv => jsAtan2 (JsNum.sub cv.1.y cv.2.y) (JsNum.sub cv.1.x cv.2.x))).foldl
    JsR.add (.fin 0)

/-- `MotionTracker.detectCircularMotion(velocities)`:
`Math.abs(angleSum) > Math.PI * 1.5`. -/
noncomputable def detectCircularMotion (velocities : List Point) : Prop :=
  JsR.gtP (JsR.abs (angleSum velocities)) (.fin (Real.pi * 1.5))

/-- `Math.abs(a.x) < 0.1 && Math.abs(a.y) < 0.1` for every acceleration:
the `isConstantVelocity` check of `detectMotionPattern`. -/
def isConstantVelocity (accelerations : List Point) : Bool :=
  accelerations.all (fun a =>
    JsNum.lt a.x.abs (.fin (1/10)) && JsNum.lt a.y.abs (.fin (1/10)))

open Classical in
/-- `MotionTracker.detectMotionPattern()`: the priority chain
insufficient data → linear → oscillating → circular → complex. -/
noncomputable def detectMotionPattern (history : List MotionData) : String :=
  if history.length < 3 then "insufficient data"
  else
    let velocities := history.map (fun m => m.velocity)
    let accelerations := history.map (fun m => m.acceleration)
    if isConstantVelocity accelerations then "linear"
    else if detectOscillation velocities then "oscillating"
    else if detectCircularMotion velocities then "circular"
    else "complex"

/-- The record returned by `MotionTracker.analyzeMotion`.  `isMoving` is
the truth value of the JS comparison `averageSpeed > 0.5`. -/
structure AnalyzeResult : Type where
  averageSpeed : JsR
  maxSpeed : JsR
  isMoving : Prop
  dominantDirection : String
  motionPattern : String

/-- `speeds.reduce((a, b) => a + b)`: `reduce` without an initial value
throws on an empty array (embedded as `none`), otherwise folds from the
first element. -/
def jsReduceAdd : List JsR → Option JsR
| [] => none
| x :: xs => some (xs.foldl JsR.add x)

/-- `MotionTracker.analyzeMotion()`: with fewer than 2 history samples
the fixed `'none'` / `'insufficient data'` record; otherwise speeds,
average / max speed, the `isMoving` threshold, per-sample compass
directions, the dominant direction and the motion pattern. -/
noncomputable def analyzeMotionJs (history : List MotionData) :
    Except String AnalyzeResult := do
  if history.length < 2 then
    return { averageSpeed := .fin 0, maxSpeed := .fin 0, isMoving := False,
             dominantDirection := "none", motionPattern := "insufficient data" }
  else
    let speeds := history.map (fun m =>
      jsSqrt (JsNum.add (JsNum.mul m.velocity.x m.velocity.x)
        (JsNum.mul m.velocity.y m.velocity.y)))
    let total ← match jsReduceAdd speeds with
      | some t => pure t
      | none => Except.error "TypeError: reduce of empty array with no initial value"
    let averageSpeed := JsR.divNat total speeds.length
    let maxSpeed := speeds.foldl JsR.max2 .ninf
    let isMoving := JsR.gtP averageSpeed (.fin (1/2))
    let directions := history.map (fun m => getDirection (jsAtan2 m.velocity.y m.velocity.x))
    let dominantDirection ← match findDominantDirection directions with
      | some d => pure d
      | none => Except.error "TypeError: cannot index undefined"
    let motionPattern := detectMotionPattern history
    return { averageSpeed := averageSpeed, maxSpeed := maxSpeed, isMoving := isMoving,
             dominantDirection := dominantDirection, motionPattern := motionPattern }

/-! ## Named intermediate results of predict / update

These name the values `predictJs` and `updateJs` compute, so theorems can
refer to "the state after predict" and "the state after update". -/

/-- The state `F · state` after `predict(dt)`. -/
def predictedStateOf (kf : KState) (dt : JsNum) : Vec := mulVecJs (transitionF dt) kf.state

/-- The covariance `F·P·Fᵗ + Q(dt)` after `predict(dt)`. -/
def predictedCovOf (kf : KState) (dt : JsNum) : Mat :=
  matrixAddJs
    (mulMatJs (mulMatJs (transitionF dt) kf.covariance) (transposeJs (transitionF dt)))
    (createProcessNoiseMatrix kf dt)

/-- The whole `KState` after `predict(dt)`. -/
def predictedKf (kf : KState) (dt : JsNum) : KState :=
  { kf with state := predictedStateOf kf dt, covariance := predictedCovOf kf dt }

/-- The `{x, y, dx, dy}` record `predict(dt)` returns. -/
def predictedOut (kf : KState) (dt : JsNum) : PredOut :=
  { x := (predictedStateOf kf dt).getD 0 .nan, y := (predictedStateOf kf dt).getD 1 .nan,
    dx := (predictedStateOf kf dt).getD 2 .nan, dy := (predictedStateOf kf dt).getD 3 .nan }

/-- The Kalman gain `K = P·Hᵗ·S⁻¹` computed by `update`. -/
def kalmanGain (kf : KState) : Mat :=
  mulMatJs (mulMatJs kf.covariance (transposeJs measurementH)) (inverse2x2Js (innovationS kf))

/-- The state after `update(measurement)`. -/
def updatedState (kf : KState) (measurement : Point) : Vec :=
  vectorAddJs kf.state
    (mulVecJs (kalmanGain kf)
      (vectorSubtractJs [measurement.x, measurement.y] (mulVecJs measurementH kf.state)))

/-- The covariance `(I − K·H)·P` after `update`. -/
def updatedCov (kf : KState) : Mat :=
  mulMatJs (matrixSubtractJs (identityJs 4) (mulMatJs (kalmanGain kf) measurementH)) kf.covariance

/-- The whole `KState` after `update(measurement)`. -/
def updatedKf (kf : KState) (measurement : Point) : KState :=
  { kf with state := updatedState kf measurement, covariance := updatedCov kf }

/-! ## Invariant, spec-side (refinement) definitions and concrete inputs -/

/-- Invariant tying a tracker to the list `acc` of all samples returned so
far: the history is the at-most-10-element suffix of `acc`, the `last*`
fields are null only before the first call, and they are set together. -/
def GoodTr (tr : Tracker) (acc : List MotionData) : Prop :=
  tr.motionHistory = acc.drop (acc.length - historySize) ∧
  (tr.lastTimestamp = none → acc = []) ∧
  (tr.lastTimestamp = none ∨
    ∃ lp lv, tr.lastPosition = some lp ∧ tr.lastVelocity = some lv)

/-- Spec side (written from the spec's words, to be compared with the
source-derived `getDirection`): for a finite angle, the compass sector
index is `round((angle + π) · 4 / π) mod 8`, mapped into the fixed list
`[east, northeast, north, northwest, west, southwest, south, southeast]`;
a non-finite angle has no sector. -/
noncomputable def specLabel (angle : JsR) : String :=
  match angle with
  | .fin r => directionLabels.getD (jsRem (jsRound (((r + Real.pi) * 4) / Real.pi)) 8).toNat
      "undefined"
  | _ => "undefined"

/-- Spec side: the first entry of a stable count achieving the maximal
count — "most frequent label across the window (ties resolved by
first-encountered order in a stable count)". -/
def specPick : List (String × ℕ) → Option (String × ℕ)
| [] => none
| e :: rest =>
  match specPick rest with
  | none => some e
  | some b => if e.2 < b.2 then some b else some e

/-- Spec side: the dominant direction is the most frequent label, ties
resolved in favour of the label encountered first. -/
def specDominant (directions : List String) : Option String :=
  (specPick (countsList directions)).map (fun e => e.1)

/-- Spec side: "all sample accelerations satisfy |ax| < 0.1 AND |ay| < 0.1". -/
def specLinear (history : List MotionData) : Prop :=
  ∀ m ∈ history, JsNum.lt m.acceleration.x.abs (.fin (1/10)) = true ∧
    JsNum.lt m.acceleration.y.abs (.fin (1/10)) = true

/-- Spec side: "count of consecutive-sample sign changes in vx or vy". -/
def specSignChanges (velocities : List Point) : ℕ :=
  ((velocities.drop 1).zip velocities).countP
    (fun cv => JsNum.strictNe cv.1.x.sign cv.2.x.sign || JsNum.strictNe cv.1.y.sign cv.2.y.sign)

/-- Spec side: "sum of signed turning angles between successive
velocity-difference vectors has |Σangle| > 1.5π" (each angle is the
signed angle `atan2` of the difference of successive velocities). -/
noncomputable def specCircular (velocities : List Point) : Prop :=
  JsR.gtP (JsR.abs (angleSum velocities)) (.fin (Real.pi * 1.5))

open Classical in
/-- Spec side: the classification chain in its stated priority order,
first match wins. -/
noncomputable def specClassify (history : List MotionData) : String :=
  if history.length < 3 then "insufficient data"
  else if specLinear history then "linear"
  else if 2 ≤ specSignChanges (history.map (fun m => m.velocity)) then "oscillating"
  else if specCircular (history.map (fun m => m.velocity)) then "circular"
  else "complex"

/-- The input trace of the linear-classification scenario: positions
`(t, 0)` at timestamps `t · 1000` ms for `t = 0..9` (so `dt = 1 s`
between consecutive calls). -/
def c1Inputs : List (Point × JsNum) :=
  (List.range 10).map (fun t => ({ x := .fin t, y := .fin 0 }, .fin (1000 * t)))

/-- The tracker and sample list produced by running the scenario. -/
def c1Result : Tracker × List MotionData :=
  (trackAll freshTracker c1Inputs).toOption.getD (freshTracker, [])

/-- The motion history after the 10th `track()` call of the scenario. -/
def c1Hist : List MotionData := c1Result.1.motionHistory

/-- The `KalmanFilter(0, 0, 0.1, 0)` instance of the singular-S scenario
(`measurementNoise = 0`, so one exact update drives the position block of
the covariance, and hence `det(S)` of the next update, to zero). -/
def c2kf0 : KState := mkKalman (.fin 0) (.fin 0) (.fin (1/10)) (.fin 0)

/-- A concrete two-sample history (zero velocities, 1 s apart) used to
witness the direction claim. -/
def twoSampleHist : List MotionData :=
  [{ position := { x := .fin 0, y := .fin 0 }, velocity := { x := .fin 0, y := .fin 0 },
     acceleration := { x := .fin 0, y := .fin 0 }, timestamp := .fin 0 },
   { position := { x := .fin 1, y := .fin 0 }, velocity := { x := .fin 0, y := .fin 0 },
     acceleration := { x := .fin 0, y := .fin 0 }, timestamp := .fin 1000 }]

/-! ## Theorems -/

/-- `predict` never throws: every `matrixMultiply` call it makes passes one
matrix and one vector-or-matrix in a combination the dispatch accepts, so
the `'Invalid matrix multiplication input types'` branch (and the
unchecked casts) are unreachable. -/
theorem predictJs_ok (kf : KState) (dt : JsNum) :
    predictJs kf dt = .ok (predictedOut kf dt, predictedKf kf dt) := rfl

/-- `update` never throws, for the same reason as `predict`. -/
theorem updateJs_ok (kf : KState) (measurement : Point) :
    updateJs kf measurement = .ok (updatedKf kf measurement) := rfl

/-- Reduction of an `Except` bind on a success value. -/
theorem okBind {ε α β : Type} (a : α) (f : α → Except ε β) :
    (Except.ok a : Except ε α) >>= f = f a := rfl

/-- `pure` on `Except` is `Except.ok`. -/
theorem pureOk {ε α : Type} (a : α) : (pure a : Except ε α) = Except.ok a := rfl

/-! ## Reachability invariant and history evolution of track() -/

theorem goodTr_fresh : GoodTr freshTracker [] := by
  refine ⟨rfl, fun _ => rfl, Or.inl rfl⟩

/-- The list identity behind the FIFO trim: pushing one element onto the
at-most-10-element suffix of `acc` and trimming yields the suffix of
`acc ++ [s]`. -/
theorem pushTrim_suffix (acc : List MotionData) (s : MotionData) :
    (if historySize < (acc.drop (acc.length - historySize) ++ [s]).length
     then (acc.drop (acc.length - historySize) ++ [s]).drop 1
     else acc.drop (acc.length - historySize) ++ [s]) =
    (acc ++ [s]).drop ((acc ++ [s]).length - historySize) := by
  have hlen : (acc.drop (acc.length - historySize)).length =
      acc.length - (acc.length - historySize) := List.length_drop _ _
  by_cases hb : acc.length < historySize
  · have h0 : acc.length - historySize = 0 := by omega
    have h1 : (acc ++ [s]).length - historySize = 0 := by
      simp only [List.length_append, List.length_singleton]; omega
    rw [h0, h1, List.drop_zero, List.drop_zero]
    rw [if_neg (by simp only [List.length_append, List.length_singleton,
      List.drop_zero]; omega)]
  · have h2 : historySize < (acc.drop (acc.length - historySize) ++ [s]).length := by
      simp only [List.length_append, List.length_singleton, hlen]; omega
    have hle : acc.length - historySize ≤ acc.length := Nat.sub_le _ _
    rw [if_pos h2, ← List.drop_append_of_le_length hle, List.drop_drop]
    congr 1
    simp only [List.length_append, List.length_singleton]
    omega

theorem trackJs_step (tr : Tracker) (acc : List MotionData) (hg : GoodTr tr acc)
    (p : Point) (ts : JsNum) :
    ∃ s tr1, trackJs tr p ts = .ok (s, tr1) ∧ GoodTr tr1 (acc ++ [s]) := by
  obtain ⟨hhist, hnil, hlast⟩ := hg
  match hlt : tr.lastTimestamp with
  | none =>
    have hacc : acc = [] := hnil hlt
    subst hacc
    simp only [List.drop_nil, List.length_nil] at hhist
    simp only [trackJs, hlt]
    refine ⟨_, _, rfl, ?_, by simp, Or.inr ⟨p, _, rfl, rfl⟩⟩
    simp [hhist, historySize]
  | some lastTs =>
    obtain ⟨lp, lv, hlp, hlv⟩ := hlast.resolve_left (by simp [hlt])
    simp only [trackJs, hlt, hlp, hlv, predictJs_ok, updateJs_ok, okBind, pureOk]
    refine ⟨_, _, rfl, ?_, by simp, Or.inr ⟨p, _, rfl, rfl⟩⟩
    show (if historySize < (tr.motionHistory ++ [_]).length
          then (tr.motionHistory ++ [_]).drop 1
          else tr.motionHistory ++ [_]) = _
    rw [hhist]
    exact pushTrim_suffix acc _

/-! ## Dominant direction: stable sort head = first maximal entry -/

/-- The head of the stable descending-by-count insertion sort is the first
entry achieving the maximal count. -/
theorem sortHead_eq_specPick (l : List (String × ℕ)) :
    (l.insertionSort (fun a b => b.2 ≤ a.2)).head? = specPick l := by
  induction l with
  | nil => rfl
  | cons e rest ih =>
    rw [List.insertionSort]
    cases hs : List.insertionSort (fun a b => b.2 ≤ a.2) rest with
    | nil =>
      have hre : rest = [] := by
        have hp := List.perm_insertionSort (fun a b => b.2 ≤ a.2) rest
        rw [hs] at hp
        exact hp.nil_eq.symm
      subst hre
      rfl
    | cons b t =>
      rw [hs] at ih
      rw [List.orderedInsert]
      show _ = specPick (e :: rest)
      rw [specPick, ← ih]
      by_cases hc : b.2 ≤ e.2
      · rw [if_pos hc]
        simp only [List.head?_cons]
        rw [if_neg (by omega)]
      · rw [if_neg hc]
        simp only [List.head?_cons]
        rw [if_pos (by omega)]

/-- The counts fold never shrinks its accumulator. -/
theorem countsFold_length_le (ds : List String) :
    ∀ acc : List (String × ℕ), acc.length ≤ (ds.foldl
      (fun acc dir => if acc.any (fun e => e.1 = dir)
        then acc.map (fun e => if e.1 = dir then (e.1, e.2 + 1) else e)
        else acc ++ [(dir, 1)]) acc).length := by
  induction ds with
  | nil => simp
  | cons d ds ih =>
    intro acc
    rw [List.foldl_cons]
    refine le_trans ?_ (ih _)
    by_cases hmem : acc.any (fun e => e.1 = d)
    · simp [hmem]
    · simp [hmem]

/-- The counts object of a nonempty direction list is nonempty. -/
theorem countsList_ne_nil (d : String) (ds : List String) : countsList (d :: ds) ≠ [] := by
  have h1 : (1 : ℕ) ≤ (countsList (d :: ds)).length := by
    rw [countsList, List.foldl_cons]
    have := countsFold_length_le ds [(d, 1)]
    simpa using this
  intro hc
  rw [hc] at h1
  simp at h1

/-- The source `findDominantDirection` (stable sort, take head) agrees with
the spec reading (most frequent, ties to first encountered). -/
theorem findDominant_eq_specDominant (dirs : List String) :
    findDominantDirection dirs = specDominant dirs := by
  rw [findDominantDirection, specDominant, sortHead_eq_specPick]

/-- `specPick` of a nonempty list is `some`. -/
theorem specPick_some (l : List (String × ℕ)) (h : l ≠ []) : ∃ e, specPick l = some e := by
  cases l with
  | nil => exact absurd rfl h
  | cons e rest =>
    rw [specPick]
    cases hr : specPick rest with
    | none => exact ⟨e, rfl⟩
    | some b =>
      by_cases hc : e.2 < b.2
      · refine ⟨b, ?_⟩
        show (if e.2 < b.2 then some b else some e) = some b
        rw [if_pos hc]
      · refine ⟨e, ?_⟩
        show (if e.2 < b.2 then some b else some e) = some e
        rw [if_neg hc]

/-- `findDominantDirection` of a nonempty direction list succeeds. -/
theorem findDominant_some (d : String) (ds : List String) :
    ∃ x, findDominantDirection (d :: ds) = some x := by
  rw [findDominant_eq_specDominant]
  obtain ⟨e, he⟩ := specPick_some _ (countsList_ne_nil d ds)
  exact ⟨e.1, by rw [specDominant, he]; rfl⟩

/-- Mapping over an `Except` success value. -/
theorem okMap {ε α β : Type} (f : α → β) (a : α) :
    Except.map f (Except.ok a : Except ε α) = Except.ok (f a) := rfl

/-- `analyzeMotion` never throws. -/
theorem analyzeMotionJs_total (h : List MotionData) : ∃ r, analyzeMotionJs h = .ok r := by
  by_cases hlen : h.length < 2
  · exact ⟨_, by simp only [analyzeMotionJs, if_pos hlen]; rfl⟩
  · obtain ⟨a, t, rfl⟩ : ∃ a t, h = a :: t := by
      cases h with
      | nil => simp at hlen
      | cons a t => exact ⟨a, t, rfl⟩
    obtain ⟨x, hx⟩ := findDominant_some
      (getDirection (jsAtan2 a.velocity.y a.velocity.x))
      (t.map (fun m => getDirection (jsAtan2 m.velocity.y m.velocity.x)))
    rw [← List.map_cons (fun m => getDirection (jsAtan2 m.velocity.y m.velocity.x)) a t] at hx
    exact ⟨_, by
      simp only [analyzeMotionJs, if_neg hlen, jsReduceAdd, okBind, pureOk, List.map_cons]
      rw [List.map_cons] at hx
      rw [hx]⟩

/-- With at least two history samples the `motionPattern` and
`dominantDirection` fields of the `analyzeMotion` result are
`detectMotionPattern` and the dominant label of the per-sample compass
directions. -/
theorem analyzeMotionJs_fields (h : List MotionData) (hlen : ¬ h.length < 2) :
    ∃ x, findDominantDirection
        (h.map (fun m => getDirection (jsAtan2 m.velocity.y m.velocity.x))) = some x ∧
      (analyzeMotionJs h).map (fun r => (r.motionPattern, r.dominantDirection)) =
        .ok (detectMotionPattern h, x) := by
  obtain ⟨a, t, rfl⟩ : ∃ a t, h = a :: t := by
    cases h with
    | nil => simp at hlen
    | cons a t => exact ⟨a, t, rfl⟩
  obtain ⟨x, hx⟩ := findDominant_some
    (getDirection (jsAtan2 a.velocity.y a.velocity.x))
    (t.map (fun m => getDirection (jsAtan2 m.velocity.y m.velocity.x)))
  have hx2 : findDominantDirection
      ((a :: t).map (fun m => getDirection (jsAtan2 m.velocity.y m.velocity.x))) = some x := by
    rw [List.map_cons]
    exact hx
  refine ⟨x, hx2, ?_⟩
  simp only [analyzeMotionJs, if_neg hlen, List.map_cons, jsReduceAdd, okBind, pureOk]
  rw [hx]
  rfl

/-- Success-form of `analyzeMotionJs_fields`. -/
theorem analyzeMotionJs_ok_fields (h : List MotionData) (hlen : ¬ h.length < 2) :
    ∃ r, analyzeMotionJs h = .ok r ∧ r.motionPattern = detectMotionPattern h ∧
      some r.dominantDirection = findDominantDirection
        (h.map (fun m => getDirection (jsAtan2 m.velocity.y m.velocity.x))) := by
  obtain ⟨x, hx, hmap⟩ := analyzeMotionJs_fields h hlen
  obtain ⟨r, hr⟩ := analyzeMotionJs_total h
  rw [hr, okMap] at hmap
  have hpair : (r.motionPattern, r.dominantDirection) = (detectMotionPattern h, x) := by
    injection hmap
  have h1 : r.motionPattern = detectMotionPattern h := congrArg Prod.fst hpair
  have h2 : r.dominantDirection = x := congrArg Prod.snd hpair
  exact ⟨r, hr, h1, by rw [h2, hx]⟩

/-- A whole sequence of `track()` calls from a reachable tracker succeeds,
returns one sample per call, and re-establishes the invariant. -/
theorem trackAll_good (inputs : List (Point × JsNum)) :
    ∀ tr acc, GoodTr tr acc →
    ∃ tr1 samples, trackAll tr inputs = .ok (tr1, samples) ∧
      samples.length = inputs.length ∧ GoodTr tr1 (acc ++ samples) := by
  induction inputs with
  | nil => exact fun tr acc hg => ⟨tr, [], rfl, rfl, by simpa using hg⟩
  | cons i rest ih =>
    intro tr acc hg
    obtain ⟨s, tr1, hstep, hg1⟩ := trackJs_step tr acc hg i.1 i.2
    obtain ⟨tr2, samples, hrest, hlen, hg2⟩ := ih tr1 (acc ++ [s]) hg1
    refine ⟨tr2, s :: samples, ?_, by simp [hlen], by simpa using hg2⟩
    simp only [trackAll, hstep, okBind, hrest, pureOk]

/-! ## Claim theorems -/

/-- C3 (counterexample): on the first `track((5,7), 0)` call of a fresh
tracker the internal Kalman filter is NOT initialized at the supplied
position — its state stays `[0, 0, 0, 0]` from the `MotionTracker`
constructor (which called `new KalmanFilter()` with default `(0, 0)`),
not `[5, 7, 0, 0]` as claimed. -/
theorem claimC3Counterexample :
    ∃ s tr1, trackJs freshTracker { x := .fin 5, y := .fin 7 } (.fin 0) = .ok (s, tr1) ∧
      tr1.kalmanFilter.state = [.fin 0, .fin 0, .fin 0, .fin 0] ∧
      tr1.kalmanFilter.state ≠ [.fin 5, .fin 7, .fin 0, .fin 0] :=
  ⟨_, _, rfl, rfl, by decide⟩

/-- C3 (amended): on the very first `track(position, timestamp)` call the
bootstrap branch runs: no predict/update is performed, the estimator is
left exactly as the constructor built it (state `[0,0,0,0]`, i.e. it is
NOT re-initialized at `position`), and a MotionSample with the supplied
position, zero velocity and zero acceleration is recorded in history and
returned. -/
theorem claimC3 (p : Point) (ts : JsNum) :
    trackJs freshTracker p ts = .ok
      ({ position := p, velocity := { x := .fin 0, y := .fin 0 },
         acceleration := { x := .fin 0, y := .fin 0 }, timestamp := ts },
       { kalmanFilter := mkKalman, lastTimestamp := some ts, lastPosition := some p,
         lastVelocity := some { x := .fin 0, y := .fin 0 },
         motionHistory := [{ position := p,
                             velocity := { x := .fin 0, y := .fin 0 },
                             acceleration := { x := .fin 0, y := .fin 0 },
                             timestamp := ts }] }) := rfl

/-- C9: `reset()` produces exactly the state of a freshly constructed
tracker — zero Kalman state, `diag(100,100,100,100)` covariance, empty
history, all `last*` fields null — so every subsequent `track()` sequence
behaves identically to one started on a fresh instance (the next call
takes the bootstrap path again). -/
theorem claimC9 (tr : Tracker) (inputs : List (Point × JsNum)) :
    resetTracker tr = freshTracker ∧
    (resetTracker tr).kalmanFilter.state = [.fin 0, .fin 0, .fin 0, .fin 0] ∧
    (resetTracker tr).kalmanFilter.covariance =
      [[.fin 100, .fin 0, .fin 0, .fin 0], [.fin 0, .fin 100, .fin 0, .fin 0],
       [.fin 0, .fin 0, .fin 100, .fin 0], [.fin 0, .fin 0, .fin 0, .fin 100]] ∧
    (resetTracker tr).motionHistory = [] ∧
    (resetTracker tr).lastTimestamp = none ∧
    (resetTracker tr).lastPosition = none ∧
    (resetTracker tr).lastVelocity = none ∧
    trackAll (resetTracker tr) inputs = trackAll freshTracker inputs :=
  ⟨rfl, rfl, rfl, rfl, rfl, rfl, rfl, rfl⟩

/-- C10: on a non-bootstrap `track()` call (all `last*` fields set), the
returned sample's position and velocity are exactly the `{x,y,dx,dy}`
returned by `predict(dt)` — which is the estimator state after predict
and before update — while the measurement correction of `update` is only
stored in the tracker's filter for later calls. -/
theorem claimC10 (kf : KState) (lt : JsNum) (lp lv : Point) (hist : List MotionData)
    (p : Point) (ts : JsNum) :
    ∃ s tr1,
      trackJs { kalmanFilter := kf, lastTimestamp := some lt, lastPosition := some lp,
                lastVelocity := some lv, motionHistory := hist } p ts = .ok (s, tr1) ∧
      s.position = { x := (predictedOut kf (JsNum.div (JsNum.sub ts lt) (.fin 1000))).x,
                     y := (predictedOut kf (JsNum.div (JsNum.sub ts lt) (.fin 1000))).y } ∧
      s.velocity = { x := (predictedOut kf (JsNum.div (JsNum.sub ts lt) (.fin 1000))).dx,
                     y := (predictedOut kf (JsNum.div (JsNum.sub ts lt) (.fin 1000))).dy } ∧
      (predictedOut kf (JsNum.div (JsNum.sub ts lt) (.fin 1000))).x =
        (predictedKf kf (JsNum.div (JsNum.sub ts lt) (.fin 1000))).state.getD 0 .nan ∧
      (predictedOut kf (JsNum.div (JsNum.sub ts lt) (.fin 1000))).y =
        (predictedKf kf (JsNum.div (JsNum.sub ts lt) (.fin 1000))).state.getD 1 .nan ∧
      (predictedOut kf (JsNum.div (JsNum.sub ts lt) (.fin 1000))).dx =
        (predictedKf kf (JsNum.div (JsNum.sub ts lt) (.fin 1000))).state.getD 2 .nan ∧
      (predictedOut kf (JsNum.div (JsNum.sub ts lt) (.fin 1000))).dy =
        (predictedKf kf (JsNum.div (JsNum.sub ts lt) (.fin 1000))).state.getD 3 .nan ∧
      tr1.kalmanFilter = updatedKf (predictedKf kf (JsNum.div (JsNum.sub ts lt) (.fin 1000))) p :=
  ⟨_, _, rfl, rfl, rfl, rfl, rfl, rfl, rfl, rfl⟩

/-- C5: for every sequence of `track()` calls on a fresh tracker, every
call succeeds and returns one sample, and the history is exactly the
suffix of the last (at most) 10 returned samples in call order — so its
length is `min (number of calls) 10` and eviction is FIFO. -/
theorem claimC5 (inputs : List (Point × JsNum)) :
    ∃ tr1 samples, trackAll freshTracker inputs = .ok (tr1, samples) ∧
      samples.length = inputs.length ∧
      tr1.motionHistory = samples.drop (samples.length - historySize) ∧
      tr1.motionHistory.length = min inputs.length historySize := by
  obtain ⟨tr1, samples, heq, hlen, hg⟩ := trackAll_good inputs freshTracker [] goodTr_fresh
  have hh : tr1.motionHistory = samples.drop (samples.length - historySize) := by
    simpa using hg.1
  refine ⟨tr1, samples, heq, hlen, hh, ?_⟩
  rw [hh, List.length_drop, hlen]
  omega

/-- C6: for every sequence of well-typed inputs (arbitrary positions and
timestamps, including non-increasing ones giving `dt ≤ 0`, and inputs
driving the innovation covariance singular), `track()` and
`analyzeMotion()` terminate successfully — the error branch of
`matrixMultiply` (and the unchecked result casts) are unreachable for the
fixed shapes `predict` and `update` pass it. -/
theorem claimC6 :
    (∀ inputs : List (Point × JsNum), ∃ out, trackAll freshTracker inputs = .ok out) ∧
    (∀ h : List MotionData, ∃ r, analyzeMotionJs h = .ok r) ∧
    (∀ kf dt, ∃ o, predictJs kf dt = .ok o) ∧
    (∀ kf m, ∃ o, updateJs kf m = .ok o) := by
  refine ⟨fun inputs => ?_, analyzeMotionJs_total, fun kf dt => ⟨_, predictJs_ok kf dt⟩,
    fun kf m => ⟨_, updateJs_ok kf m⟩⟩
  obtain ⟨tr1, samples, heq, _, _⟩ := trackAll_good inputs freshTracker [] goodTr_fresh
  exact ⟨(tr1, samples), heq⟩

/-- C2: the code does NOT detect a singular innovation covariance.  With
`new KalmanFilter(0, 0, 0.1, 0)` (zero measurement noise, accepted by the
constructor), after one exact update the next `update()` has
`det(S) = 0`; `inverse2x2` divides by that zero determinant and the
resulting NaN entries propagate into the state, which becomes
`[NaN, NaN, NaN, NaN]` instead of being left at its pre-update value as
the spec requires. -/
theorem claimC2 :
    ∃ kf1 kf2, updateJs c2kf0 { x := .fin 0, y := .fin 0 } = .ok kf1 ∧
      updateJs kf1 { x := .fin 1, y := .fin 2 } = .ok kf2 ∧
      det2x2 (innovationS kf1) = .fin 0 ∧
      kf2.state = [.nan, .nan, .nan, .nan] ∧
      kf2.state ≠ kf1.state := by
  refine ⟨_, _, rfl, rfl, ?_, ?_, ?_⟩ <;> with_unfolding_all decide

/-- C7: the pattern classification agrees with the spec's priority chain,
first match winning: length < 3 → insufficient data; all accelerations
small → linear; ≥ 2 sign changes → oscillating; large angle sum →
circular; otherwise complex. -/
theorem claimC7 (history : List MotionData) :
    detectMotionPattern history = specClassify history := by
  have hlin : (isConstantVelocity (history.map fun m => m.acceleration) = true) ↔
      specLinear history := by
    simp [isConstantVelocity, specLinear, List.all_eq_true, Bool.and_eq_true]
  have hosc : (detectOscillation (history.map fun m => m.velocity) = true) ↔
      2 ≤ specSignChanges (history.map fun m => m.velocity) := by
    simp [detectOscillation, specSignChanges]
  simp only [detectMotionPattern, specClassify]
  by_cases h3 : history.length < 3
  · rw [if_pos h3, if_pos h3]
  · rw [if_neg h3, if_neg h3]
    by_cases hL : specLinear history
    · rw [if_pos (hlin.mpr hL), if_pos hL]
    · rw [if_neg (fun hc => hL (hlin.mp hc)), if_neg hL]
      by_cases hO : 2 ≤ specSignChanges (history.map fun m => m.velocity)
      · rw [if_pos (hosc.mpr hO), if_pos hO]
      · rw [if_neg (fun hc => hO (hosc.mp hc)), if_neg hO]
        by_cases hC : specCircular (history.map fun m => m.velocity)
        · rw [if_pos (show detectCircularMotion (history.map fun m => m.velocity) from hC),
            if_pos hC]
        · rw [if_neg (show ¬ detectCircularMotion (history.map fun m => m.velocity) from hC),
            if_neg hC]

/-- C4: the classification is `"circular"` exactly when no higher-priority
rule matched (enough data, not all accelerations small, fewer than 2 sign
changes) and the absolute value of the sum over successive velocity
differences of their signed `atan2` angles exceeds `1.5π`. -/
theorem claimC4 (history : List MotionData) :
    detectMotionPattern history = "circular" ↔
      (¬ history.length < 3 ∧
       isConstantVelocity (history.map fun m => m.acceleration) = false ∧
       detectOscillation (history.map fun m => m.velocity) = false ∧
       JsR.gtP (JsR.abs (angleSum (history.map fun m => m.velocity)))
         (.fin (Real.pi * 1.5))) := by
  simp only [detectMotionPattern]
  by_cases h3 : history.length < 3
  · rw [if_pos h3]
    simp [h3]
  · rw [if_neg h3]
    by_cases hL : isConstantVelocity (history.map fun m => m.acceleration) = true
    · rw [if_pos hL]
      simp [hL]
    · rw [if_neg hL]
      by_cases hO : detectOscillation (history.map fun m => m.velocity) = true
      · rw [if_pos hO]
        simp [hO]
      · rw [if_neg hO]
        by_cases hC : detectCircularMotion (history.map fun m => m.velocity)
        · rw [if_pos hC]
          simp only [Bool.not_eq_true] at hL hO
          simp [h3, hL, hO]
          exact hC
        · rw [if_neg hC]
          constructor
          · intro hc
            exact absurd hc (by decide)
          · intro hc
            exact absurd hc.2.2.2 hC

/-! ## C8: direction quantization and dominant direction -/

/-- The finite `atan2` lands in `[-π, π]`. -/
theorem atan2R_mem (y x : ℝ) : -Real.pi ≤ atan2R y x ∧ atan2R y x ≤ Real.pi := by
  have hpi := Real.pi_pos
  have h1 := Real.arctan_lt_pi_div_two (y / x)
  have h2 := Real.neg_pi_div_two_lt_arctan (y / x)
  rw [atan2R]
  split_ifs with hx hx2 hy hy1 hy2
  · exact ⟨by nlinarith, by nlinarith⟩
  · have h3 : Real.arctan (y / x) ≤ 0 := by
      have h4 : y / x ≤ 0 := div_nonpos_iff.mpr (Or.inl ⟨hy, hx2.le⟩)
      calc Real.arctan (y / x) ≤ Real.arctan 0 := Real.arctan_strictMono.monotone h4
      _ = 0 := Real.arctan_zero
    exact ⟨by nlinarith, by nlinarith⟩
  · have h3 : 0 ≤ Real.arctan (y / x) := by
      have h4 : 0 ≤ y / x := div_nonneg_iff.mpr (Or.inr ⟨(not_le.mp hy).le, hx2.le⟩)
      calc (0:ℝ) = Real.arctan 0 := Real.arctan_zero.symm
      _ ≤ Real.arctan (y / x) := Real.arctan_strictMono.monotone h4
    exact ⟨by nlinarith, by nlinarith⟩
  · exact ⟨by nlinarith, by nlinarith⟩
  · exact ⟨by nlinarith, by nlinarith⟩
  · exact ⟨by nlinarith, by nlinarith⟩

/-- `jsAtan2` is NaN or a finite angle in `[-π, π]`. -/
theorem jsAtan2_cases (y x : JsNum) :
    jsAtan2 y x = .nan ∨ ∃ r, jsAtan2 y x = .fin r ∧ -Real.pi ≤ r ∧ r ≤ Real.pi := by
  have hpi := Real.pi_pos
  cases y with
  | nan => cases x <;> exact Or.inl rfl
  | fin a =>
    cases x with
    | nan => exact Or.inl rfl
    | fin b => exact Or.inr ⟨_, rfl, (atan2R_mem a b).1, (atan2R_mem a b).2⟩
    | inf => exact Or.inr ⟨0, rfl, by nlinarith, by nlinarith⟩
    | ninf =>
      by_cases ha : a < 0
      · exact Or.inr ⟨-Real.pi, by simp [jsAtan2, ha], le_refl _, by nlinarith⟩
      · exact Or.inr ⟨Real.pi, by simp [jsAtan2, ha], by nlinarith, le_refl _⟩
  | inf =>
    cases x with
    | nan => exact Or.inl rfl
    | fin b => exact Or.inr ⟨_, rfl, by nlinarith, by nlinarith⟩
    | inf => exact Or.inr ⟨_, rfl, by nlinarith, by nlinarith⟩
    | ninf => exact Or.inr ⟨_, rfl, by nlinarith, by nlinarith⟩
  | ninf =>
    cases x with
    | nan => exact Or.inl rfl
    | fin b => exact Or.inr ⟨_, rfl, by nlinarith, by nlinarith⟩
    | inf => exact Or.inr ⟨_, rfl, by nlinarith, by nlinarith⟩
    | ninf => exact Or.inr ⟨_, rfl, by nlinarith, by nlinarith⟩

/-- For a finite angle in `[-π, π]` the sector index is in `[0, 8)`, so the
guarded array access of the source agrees with the spec formula. -/
theorem getDirection_eq_specLabel_fin (r : ℝ) (h1 : -Real.pi ≤ r) (h2 : r ≤ Real.pi) :
    getDirection (.fin r) = specLabel (.fin r) := by
  rw [getDirection, specLabel]
  have hpi := Real.pi_pos
  set a := jsRound (((r + Real.pi) * 4) / Real.pi) with ha
  have hx0 : 0 ≤ ((r + Real.pi) * 4) / Real.pi := div_nonneg (by nlinarith) hpi.le
  have hx8 : ((r + Real.pi) * 4) / Real.pi ≤ 8 := by
    rw [div_le_iff₀ hpi]
    nlinarith
  have ha0 : 0 ≤ a := by
    rw [ha, jsRound]
    exact Int.floor_nonneg.mpr (by linarith)
  have ha8 : a ≤ 8 := by
    rw [ha, jsRound]
    have h9 : (((r + Real.pi) * 4) / Real.pi + 1/2 : ℝ) < ((9 : ℤ) : ℝ) := by
      push_cast
      linarith
    have := Int.floor_lt.mpr h9
    omega
  have hguard : 0 ≤ jsRem a 8 ∧ jsRem a 8 < 8 := by
    rw [jsRem]
    clear_value a
    interval_cases a <;> decide
  rw [if_pos hguard]

/-- The source's `getDirection` applied to a sample's `atan2` angle equals
the spec's quantization formula. -/
theorem getDirection_eq_specLabel (y x : JsNum) :
    getDirection (jsAtan2 y x) = specLabel (jsAtan2 y x) := by
  rcases jsAtan2_cases y x with h | ⟨r, h, h1, h2⟩
  · rw [h]
    rfl
  · rw [h]
    exact getDirection_eq_specLabel_fin r h1 h2

/-- C8: with at least 2 samples, each sample's direction label is
`directions[round((atan2(vy, vx) + π) · 4 / π) mod 8]` over the fixed
8-label list, and the dominant direction is the most frequent label with
ties resolved in favour of the first-encountered label. -/
theorem claimC8 (h : List MotionData) (hlen : 2 ≤ h.length) :
    ∃ r, analyzeMotionJs h = .ok r ∧
      h.map (fun m => getDirection (jsAtan2 m.velocity.y m.velocity.x)) =
        h.map (fun m => specLabel (jsAtan2 m.velocity.y m.velocity.x)) ∧
      some r.dominantDirection =
        specDominant (h.map (fun m => specLabel (jsAtan2 m.velocity.y m.velocity.x))) := by
  have hlen2 : ¬ h.length < 2 := by omega
  obtain ⟨r, hr, _, hdom⟩ := analyzeMotionJs_ok_fields h hlen2
  have hmapeq : h.map (fun m => getDirection (jsAtan2 m.velocity.y m.velocity.x)) =
      h.map (fun m => specLabel (jsAtan2 m.velocity.y m.velocity.x)) :=
    List.map_congr_left (fun m _ => getDirection_eq_specLabel _ _)
  refine ⟨r, hr, hmapeq, ?_⟩
  rw [hdom, hmapeq, findDominant_eq_specDominant]

/-- Witness for C8 at a concrete two-sample history. -/
theorem claimC8Witness :
    2 ≤ twoSampleHist.length ∧
    ∃ r, analyzeMotionJs twoSampleHist = .ok r ∧
      twoSampleHist.map (fun m => getDirection (jsAtan2 m.velocity.y m.velocity.x)) =
        twoSampleHist.map (fun m => specLabel (jsAtan2 m.velocity.y m.velocity.x)) ∧
      some r.dominantDirection =
        specDominant (twoSampleHist.map (fun m => specLabel (jsAtan2 m.velocity.y m.velocity.x))) :=
  ⟨by decide, claimC8 twoSampleHist (by decide)⟩

/-! ## C1: the `(t, 0)` scenario actually classifies as complex / west -/

theorem c1Run_ok : trackAll freshTracker c1Inputs = .ok c1Result := by
  obtain ⟨tr1, samples, heq, _, _⟩ := trackAll_good c1Inputs freshTracker [] goodTr_fresh
  unfold c1Result
  rw [heq]
  rfl

theorem c1Hist_len : c1Hist.length = 10 := by
  with_unfolding_all decide

/-- Sample 1 of the run has raw acceleration `(1, 0)` (the raw velocity
jumps from the bootstrap's `0` to `1`), so `|ax| < 0.1` fails. -/
theorem c1_notLinear : isConstantVelocity (c1Hist.map fun m => m.acceleration) = false := by
  with_unfolding_all decide

/-- The filtered velocities change sign (strictly) only once — `0` to
positive — so fewer than 2 direction changes. -/
theorem c1_notOsc : detectOscillation (c1Hist.map fun m => m.velocity) = false := by
  with_unfolding_all decide

/-- Every filtered velocity of the run has `vy = 0` and `vx ≥ 0`. -/
theorem c1_velFacts : (c1Hist.map fun m => m.velocity).all
    (fun v => decide (v.y = JsNum.fin 0) && JsNum.le (.fin 0) v.x) = true := by
  with_unfolding_all decide

/-- Every successive velocity difference of the run has `dy = 0` and
`dx ≥ 0`. -/
theorem c1_diffFacts : (((c1Hist.map fun m => m.velocity).drop 1).zip
      (c1Hist.map fun m => m.velocity)).all
    (fun cv => decide (JsNum.sub cv.1.y cv.2.y = JsNum.fin 0) &&
      JsNum.le (.fin 0) (JsNum.sub cv.1.x cv.2.x)) = true := by
  with_unfolding_all decide

theorem atan2R_zero_nonneg (q : ℝ) (h : 0 ≤ q) : atan2R 0 q = 0 := by
  rw [atan2R]
  rcases lt_or_eq_of_le h with hq | hq
  · rw [if_pos hq, zero_div, Real.arctan_zero]
  · rw [if_neg (by rw [← hq]; exact lt_irrefl 0), if_neg (by rw [← hq]; exact lt_irrefl 0)]
    norm_num

theorem jsAtan2_zero_nonneg (x : JsNum) (h : JsNum.le (.fin 0) x = true) :
    jsAtan2 (.fin 0) x = .fin 0 := by
  cases x with
  | fin q =>
    have hq : (0:ℚ) ≤ q := by simpa [JsNum.le] using h
    show JsR.fin (atan2R ((0:ℚ):ℝ) ((q:ℚ):ℝ)) = .fin 0
    rw [show ((0:ℚ):ℝ) = 0 by norm_num, atan2R_zero_nonneg _ (by exact_mod_cast hq)]
  | inf => rfl
  | ninf => simp [JsNum.le] at h
  | nan => simp [JsNum.le] at h

theorem foldl_jsRAdd_zero (l : List JsR) (h : ∀ t ∈ l, t = .fin 0) :
    l.foldl JsR.add (.fin 0) = .fin 0 := by
  induction l with
  | nil => rfl
  | cons a t ih =>
    rw [List.foldl_cons, h a (List.mem_cons_self a t)]
    rw [show JsR.add (.fin 0) (.fin 0) = .fin 0 from by
      show JsR.fin (0 + 0) = .fin 0
      norm_num]
    exact ih (fun u hu => h u (List.mem_cons_of_mem a hu))

/-- If every successive velocity difference points weakly east (`dy = 0`,
`dx ≥ 0`), every `atan2` term is 0 and the angle sum is 0. -/
theorem angleSum_zero (vels : List Point)
    (h : ∀ cv ∈ (vels.drop 1).zip vels, JsNum.sub cv.1.y cv.2.y = .fin 0 ∧
      JsNum.le (.fin 0) (JsNum.sub cv.1.x cv.2.x) = true) :
    angleSum vels = .fin 0 := by
  rw [angleSum]
  apply foldl_jsRAdd_zero
  intro t ht
  obtain ⟨cv, hcv, rfl⟩ := List.mem_map.mp ht
  obtain ⟨h1, h2⟩ := h cv hcv
  rw [h1, jsAtan2_zero_nonneg _ h2]

theorem c1_angleSum : angleSum (c1Hist.map fun m => m.velocity) = .fin 0 := by
  apply angleSum_zero
  intro cv hcv
  have hall := c1_diffFacts
  rw [List.all_eq_true] at hall
  have hthis := hall cv hcv
  rw [Bool.and_eq_true, decide_eq_true_eq] at hthis
  exact hthis

theorem c1_notCircular : ¬ detectCircularMotion (c1Hist.map fun m => m.velocity) := by
  rw [detectCircularMotion, c1_angleSum]
  show ¬ (Real.pi * 1.5 < |(0:ℝ)|)
  rw [abs_zero]
  intro hc
  nlinarith [Real.pi_pos]

theorem c1_pattern : detectMotionPattern c1Hist = "complex" := by
  simp only [detectMotionPattern]
  rw [if_neg (by rw [c1Hist_len]; norm_num)]
  rw [if_neg (by rw [c1_notLinear]; exact Bool.false_ne_true)]
  rw [if_neg (by rw [c1_notOsc]; exact Bool.false_ne_true)]
  rw [if_neg c1_notCircular]

theorem getDirection_zero : getDirection (JsR.fin 0) = "west" := by
  have hpi := Real.pi_pos
  have h4 : (((0:ℝ) + Real.pi) * 4) / Real.pi = 4 := by
    field_simp
  have hr : jsRound 4 = 4 := by
    rw [jsRound, Int.floor_eq_iff]
    constructor <;> norm_num
  simp only [getDirection, h4, hr]
  rw [if_pos (by decide)]
  rfl

theorem map_const_replicate (l : List MotionData) (c : String) :
    (l.map fun _ => c) = List.replicate l.length c := by
  induction l with
  | nil => rfl
  | cons a t ih => simp [ih, List.replicate]

theorem c1_dirs : c1Hist.map (fun m => getDirection (jsAtan2 m.velocity.y m.velocity.x)) =
    List.replicate 10 "west" := by
  have hv : ∀ v ∈ c1Hist.map (fun m => m.velocity),
      v.y = JsNum.fin 0 ∧ JsNum.le (.fin 0) v.x = true := by
    intro v hvm
    have hall := c1_velFacts
    rw [List.all_eq_true] at hall
    have hthis := hall v hvm
    rw [Bool.and_eq_true, decide_eq_true_eq] at hthis
    exact hthis
  have hpt : ∀ m ∈ c1Hist, getDirection (jsAtan2 m.velocity.y m.velocity.x) = "west" := by
    intro m hm
    obtain ⟨hy, hx⟩ := hv m.velocity (List.mem_map_of_mem _ hm)
    rw [hy, jsAtan2_zero_nonneg _ hx, getDirection_zero]
  rw [List.map_congr_left hpt, map_const_replicate, c1Hist_len]

theorem c1_dominant : findDominantDirection (List.replicate 10 "west") = some "west" := by
  decide

/-- C1 (counterexample): running the spec's linear-classification scenario
— `track((t, 0), 1000·t)` for `t = 0..9` — and calling `analyzeMotion()`
does NOT return `motionPattern = "linear"` with
`dominantDirection = "east"`. -/
theorem claimC1Counterexample :
    trackAll freshTracker c1Inputs = .ok c1Result ∧
    ∃ r, analyzeMotionJs c1Hist = .ok r ∧
      ¬ (r.motionPattern = "linear" ∧ r.dominantDirection = "east") := by
  refine ⟨c1Run_ok, ?_⟩
  have hlen : ¬ c1Hist.length < 2 := by
    rw [c1Hist_len]
    norm_num
  obtain ⟨r, hr, hpat, hdom⟩ := analyzeMotionJs_ok_fields c1Hist hlen
  refine ⟨r, hr, ?_⟩
  rintro ⟨hlin, -⟩
  rw [hpat, c1_pattern] at hlin
  exact absurd hlin (by decide)

/-- C1 (amended): running that scenario yields `motionPattern = "complex"`
(sample 1 carries the raw-acceleration transient `(1, 0)`, so the linear
rule fails, and no other rule fires) and `dominantDirection = "west"`
(the sector formula maps the eastward angle 0 to index 4 = "west"). -/
theorem claimC1 :
    trackAll freshTracker c1Inputs = .ok c1Result ∧
    ∃ r, analyzeMotionJs c1Hist = .ok r ∧
      r.motionPattern = "complex" ∧ r.dominantDirection = "west" := by
  refine ⟨c1Run_ok, ?_⟩
  have hlen : ¬ c1Hist.length < 2 := by
    rw [c1Hist_len]
    norm_num
  obtain ⟨r, hr, hpat, hdom⟩ := analyzeMotionJs_ok_fields c1Hist hlen
  refine ⟨r, hr, by rw [hpat, c1_pattern], ?_⟩
  rw [c1_dirs, c1_dominant] at hdom
  exact Option.some.inj hdom

end LCLV
